import Mathlib

/-!
Shallow embedding of the serverless platform (github.com/akos011221/serverless).

The repository has three relevant packages:
* `pkg/storage`   — SQLite/GORM metadata store for deployed functions;
* `pkg/orchestrator` — the execution engine: runs one function invocation in a
  Docker container (create → start → attach → write event → close input →
  read output → wait → inspect exit code), with a deferred forced removal of
  the container;
* `pkg/server`    — the HTTP coordinator: `POST /functions` (deploy) and
  `POST /invoke/{name}` (invoke).

The Docker daemon is modelled as a per-invocation outcome oracle
(`orchestrator.DockerEnv`): each backend call the engine makes gets the outcome
the oracle prescribes.  `Execute` additionally returns the trace of backend
actions it attempted, so ordering and cleanup claims can be stated.  Byte
payloads are modelled as `String`, machine integers (the container exit code)
as `Int`.
-/

deriving instance DecidableEq for Except

namespace storage

/-- Embeds `storage.Function` (orchestrator.go): a deployed function record.
The `gorm.Model` bookkeeping columns (ID, timestamps) are irrelevant to every
claim and are omitted; `Name` carries a `gorm:"unique"` constraint, enforced
by the database model below. -/
structure Function where
  name : String
  image : String
  runtime : String
deriving DecidableEq, Repr

/-- Embeds the state of the SQLite `functions` table as the list of stored
records, in insertion order. -/
def Store := List Function

/-- Embeds `Store.CreateFunction`: `db.Create(&function)` inserts the record;
the `gorm:"unique"` tag on `Name` makes the insert fail with a UNIQUE
constraint violation when a record with the same name already exists, and
`CreateFunction` wraps that error.  On success the new record is appended. -/
def CreateFunction (s : List Function) (name image runtime : String) :
    Except String (List Function) :=
  if s.any (fun f => f.name == name) then
    Except.error ("failed to create function: UNIQUE constraint failed: functions.name")
  else
    Except.ok (s ++ [⟨name, image, runtime⟩])

/-- Embeds `Store.GetFunction`: `db.Where("name = ?", name).First(&function)`
returns the matching record (names are unique, so `First` is the match), or a
wrapped not-found error. -/
def GetFunction (s : List Function) (name : String) : Except String Function :=
  match s.find? (fun f => f.name == name) with
  | some f => Except.ok f
  | none => Except.error ("function not found: record not found")

end storage

namespace orchestrator

/-- Backend (Docker API) actions the engine can attempt, recorded in the order
they are issued.  `remove` records the `Force` flag of `ContainerRemove`. -/
inductive Action where
  | create
  | start
  | attach
  | writeEvent
  | closeWrite
  | readOutput
  | wait
  | closeHijack
  | remove (force : Bool)
deriving DecidableEq, Repr

/-- Per-invocation oracle for the Docker backend: the outcome of each call the
engine can make.  `readRes = none` models an output stream that is never
closed (`io.Copy` never returns); `waitRes = none` models a container whose
termination is never reported (`ContainerWait` never delivers on either
channel) — both make the corresponding call block forever, which is possible
because the server hands the engine a `context.Background()` that never
expires. -/
structure DockerEnv where
  createRes : Except String String
  startRes : Except String Unit
  attachRes : Except String Unit
  writeRes : Except String Unit
  readRes : Option (Except String String)
  waitRes : Option (Except String Int)
  removeRes : Except String Unit

/-- Engine errors, one per failure site of `Orchestrator.Execute`; `message`
renders the exact `fmt.Errorf` text of each site. -/
inductive ExecError where
  | createFailed (e : String)
  | startFailed (e : String)
  | attachFailed (e : String)
  | writeFailed (e : String)
  | readFailed (e : String)
  | waitFailed (e : String)
  | nonZeroExit (code : Int)
deriving DecidableEq, Repr

/-- Renders the `fmt.Errorf` format string of each failure site of
`Orchestrator.Execute`. -/
def ExecError.message : ExecError → String
  | .createFailed e => "failed to create container: " ++ e
  | .startFailed e => "failed to start container: " ++ e
  | .attachFailed e => "failed to attach to container: " ++ e
  | .writeFailed e => "failed to write event: " ++ e
  | .readFailed e => "failed to read output: " ++ e
  | .waitFailed e => "container wait failed: " ++ e
  | .nonZeroExit code => "container exited with code " ++ toString code

/-- Result of one invocation: the `([]byte, error)` pair of `Execute`, plus
`diverges` for the runs in which a backend call blocks forever so that
`Execute` never returns. -/
inductive ExecResult where
  | success (output : String)
  | failure (err : ExecError)
  | diverges
deriving DecidableEq, Repr

/-- What one run of `Execute` does: its return value, the trace of backend
actions it attempted (in order), and the warnings it logged. -/
structure ExecOutcome where
  result : ExecResult
  trace : List Action
  warnings : List String
deriving DecidableEq, Repr

/-- Embeds `Orchestrator.cleanupContainer`: `ContainerRemove` with
`Force: true`; a removal error is only logged as a warning. -/
def cleanupWarnings (env : DockerEnv) : List String :=
  match env.removeRes with
  | .error _ => ["Failed to remove container"]
  | .ok _ => []

/-- Embeds `Orchestrator.Execute` (orchestrator.go, lines 36–89).  Steps in
source order: `ContainerCreate`; `defer cleanupContainer`; `ContainerStart`;
`ContainerAttach`; `defer hijacked.Close`; `Conn.Write(event)`;
`CloseWrite`; `io.Copy` of the output; `ContainerWait` (select on
error/status channel); exit-code inspection.  Go's defers run LIFO on every
return, so every returning path after a successful create ends with
`closeHijack` (once attach succeeded) followed by `remove true`; a path on
which a call blocks forever (`diverges`) never returns, so its defers never
run. -/
def Execute (env : DockerEnv) (fn : storage.Function) (event : String) : ExecOutcome :=
  match env.createRes with
  | .error e => ⟨.failure (.createFailed e), [.create], []⟩
  | .ok _cid =>
    match env.startRes with
    | .error e =>
        ⟨.failure (.startFailed e), [.create, .start, .remove true], cleanupWarnings env⟩
    | .ok _ =>
      match env.attachRes with
      | .error e =>
          ⟨.failure (.attachFailed e), [.create, .start, .attach, .remove true],
            cleanupWarnings env⟩
      | .ok _ =>
        match env.writeRes with
        | .error e =>
            ⟨.failure (.writeFailed e),
              [.create, .start, .attach, .writeEvent, .closeHijack, .remove true],
              cleanupWarnings env⟩
        | .ok _ =>
          match env.readRes with
          | none =>
              ⟨.diverges,
                [.create, .start, .attach, .writeEvent, .closeWrite, .readOutput], []⟩
          | some (.error e) =>
              ⟨.failure (.readFailed e),
                [.create, .start, .attach, .writeEvent, .closeWrite, .readOutput,
                  .closeHijack, .remove true],
                cleanupWarnings env⟩
          | some (.ok out) =>
            match env.waitRes with
            | none =>
                ⟨.diverges,
                  [.create, .start, .attach, .writeEvent, .closeWrite, .readOutput,
                    .wait], []⟩
            | some (.error e) =>
                ⟨.failure (.waitFailed e),
                  [.create, .start, .attach, .writeEvent, .closeWrite, .readOutput,
                    .wait, .closeHijack, .remove true],
                  cleanupWarnings env⟩
            | some (.ok code) =>
                if code ≠ 0 then
                  ⟨.failure (.nonZeroExit code),
                    [.create, .start, .attach, .writeEvent, .closeWrite, .readOutput,
                      .wait, .closeHijack, .remove true],
                    cleanupWarnings env⟩
                else
                  ⟨.success out,
                    [.create, .start, .attach, .writeEvent, .closeWrite, .readOutput,
                      .wait, .closeHijack, .remove true],
                    cleanupWarnings env⟩

/-- The canonical order of the engine's main steps (cleanup actions aside). -/
def stepOrder : List Action :=
  [.create, .start, .attach, .writeEvent, .closeWrite, .readOutput, .wait]

/-- Projects a trace onto the main steps, dropping the deferred cleanup
actions (`hijacked.Close`, `ContainerRemove`). -/
def mainActions (tr : List Action) : List Action :=
  tr.filter (fun a =>
    match a with
    | .closeHijack => false
    | .remove _ => false
    | _ => true)

/-- Truth of an `Except` outcome. -/
def exOk {α : Type} : Except String α → Bool
  | .ok _ => true
  | .error _ => false

/-- Whether the output read completed successfully. -/
def readOk : Option (Except String String) → Bool
  | some (.ok _) => true
  | _ => false

/-- How many of the engine's main steps a run against `env` attempts: steps
are attempted strictly in order, each only after all its predecessors
succeeded. -/
def attempted (env : DockerEnv) : Nat :=
  if exOk env.createRes = false then 1
  else if exOk env.startRes = false then 2
  else if exOk env.attachRes = false then 3
  else if exOk env.writeRes = false then 4
  else match env.readRes with
    | none => 6
    | some (.error _) => 6
    | some (.ok _) => 7

end orchestrator

namespace server

/-- Embeds the data of an `http.Request` the handlers inspect: the method, the
URL path, and the outcome of reading the body (`io.ReadAll` can fail). -/
structure HttpRequest where
  method : String
  path : String
  body : Except String String
deriving DecidableEq, Repr

/-- Status code and body of an HTTP response. -/
structure HttpResponse where
  status : Nat
  body : String
deriving DecidableEq, Repr

/-- Embeds `http.Error(w, msg, code)`: it writes `msg` followed by a newline
with the given status code. -/
def httpError (msg : String) (code : Nat) : HttpResponse :=
  ⟨code, msg ++ "\n"⟩

/-- Embeds `strings.TrimPrefix(s, p)`: drops `p` from the front of `s` when
`s` starts with it, otherwise returns `s` unchanged. -/
def trimPre (s p : String) : String :=
  if p.data.isPrefixOf s.data then ⟨s.data.drop p.data.length⟩ else s

/-- Embeds the decoded deploy request body (`handleDeploy`'s anonymous
`metadata` struct): `encoding/json` fills absent fields with the empty
string. -/
structure DeployMetadata where
  name : String
  image : String
  runtime : String
deriving DecidableEq, Repr

/-- Request data for `POST /functions`: method and the outcome of JSON-decoding
the body (`none` models a decode error). -/
structure DeployRequest where
  method : String
  body : Option DeployMetadata
deriving DecidableEq, Repr

/-- Embeds `Server.handleDeploy` (server.go, lines 87–124): method check,
body decode, non-empty validation of the three fields, store write; returns
the response and the resulting store state. -/
def handleDeploy (store : List storage.Function) (req : DeployRequest) :
    HttpResponse × List storage.Function :=
  if req.method ≠ "POST" then (httpError "Method not allowed" 405, store)
  else
    match req.body with
    | none => (httpError "Invalid request body" 400, store)
    | some m =>
      if m.name = "" ∨ m.image = "" ∨ m.runtime = "" then
        (httpError "Missing required fields" 400, store)
      else
        match storage.CreateFunction store m.name m.image m.runtime with
        | .error _ => (httpError "Failed to store function" 500, store)
        | .ok s => (⟨200, ""⟩, s)

/-- What one run of `handleInvoke` does: the response it writes (`hangs` when
the engine blocks forever and the handler never returns), the registry
lookups it performed, whether it called the engine, and the engine's backend
trace. -/
structure InvokeOutcome where
  result : Option HttpResponse
  lookups : List String
  engineCalled : Bool
  engineTrace : List orchestrator.Action
deriving DecidableEq, Repr

/-- Embeds `Server.handleInvoke` (server.go, lines 127–176): method check;
function name from `strings.TrimPrefix(r.URL.Path, "/invoke/")`; empty name
→ 400; `store.GetFunction` → 404 on error; body read → 400 on error; then
`orchestrator.Execute(context.Background(), function, event)` — note the
context carries no deadline — mapping an engine error to 500 with the
wrapped message and success to 200 with the output as the body.  `result =
none` records the runs on which `Execute` blocks forever, so the handler
never writes a response. -/
def handleInvoke (store : List storage.Function) (env : orchestrator.DockerEnv)
    (req : HttpRequest) : InvokeOutcome :=
  if req.method ≠ "POST" then ⟨some (httpError "Method not allowed" 405), [], false, []⟩
  else
    let functionName := trimPre req.path "/invoke/"
    if functionName = "" then
      ⟨some (httpError "Function name required" 400), [], false, []⟩
    else
      match storage.GetFunction store functionName with
      | .error _ =>
          ⟨some (httpError "Function not found" 404), [functionName], false, []⟩
      | .ok fn =>
        match req.body with
        | .error _ =>
            ⟨some (httpError "Failed to read event" 400), [functionName], false, []⟩
        | .ok event =>
          let out := orchestrator.Execute env fn event
          match out.result with
          | .failure err =>
              ⟨some (httpError ("Function execution failed: " ++ err.message) 500),
                [functionName], true, out.trace⟩
          | .success result =>
              ⟨some ⟨200, result⟩, [functionName], true, out.trace⟩
          | .diverges =>
              ⟨none, [functionName], true, out.trace⟩

end server

/-! Concrete fixtures used by witnesses and counterexamples. -/

/-- The `echo` function of the repository's example (src/unnamed/part_001),
as registered by `serverless deploy echo` (cli.go names the image
`serverless-echo:latest` and the runtime `go`). -/
def fnEcho : storage.Function := ⟨"echo", "serverless-echo:latest", "go"⟩

/-- Backend oracle for an invocation in which every call succeeds and the
container emits the echo example's output and exits 0. -/
def envEcho : orchestrator.DockerEnv :=
  ⟨.ok "c1", .ok (), .ok (), .ok (),
    some (.ok "\x7b\"result\":\"Hey, world\"\x7d"), some (.ok 0), .ok ()⟩

/-- Backend oracle for a run that succeeds except that the container exits
with code 1. -/
def envExit1 : orchestrator.DockerEnv :=
  ⟨.ok "c1", .ok (), .ok (), .ok (), some (.ok "out"), some (.ok 1), .ok ()⟩

/-- Backend oracle for a run in which everything succeeds except the final
container removal, which the daemon denies. -/
def envRemoveFail : orchestrator.DockerEnv :=
  ⟨.ok "c1", .ok (), .ok (), .ok (), some (.ok "out"), some (.ok 0), .error "denied"⟩

/-- Backend oracle for an invocation whose container creation fails. -/
def envCreateFail : orchestrator.DockerEnv :=
  ⟨.error "no such image", .ok (), .ok (), .ok (), some (.ok "out"), some (.ok 0), .ok ()⟩

/-- Backend oracle for a container that never reaches a terminal state: the
output stream closes after partial output but `ContainerWait` never reports
termination. -/
def envNeverExits : orchestrator.DockerEnv :=
  ⟨.ok "c1", .ok (), .ok (), .ok (), some (.ok "partial"), none, .ok ()⟩

/-! Helper lemmas. -/

/-- The value `Execute` returns never depends on the outcome of the deferred
`ContainerRemove`: `cleanupContainer` only logs a removal failure. -/
theorem execute_result_ignores_removeRes (cr : Except String String)
    (st att wr : Except String Unit) (rd : Option (Except String String))
    (wa : Option (Except String Int)) (rm rm2 : Except String Unit)
    (fn : storage.Function) (ev : String) :
    (orchestrator.Execute ⟨cr, st, att, wr, rd, wa, rm2⟩ fn ev).result =
      (orchestrator.Execute ⟨cr, st, att, wr, rd, wa, rm⟩ fn ev).result := by
  rcases cr with e | c <;> rcases st with e1 | u1 <;> rcases att with e2 | u2 <;>
    rcases wr with e3 | u3 <;> rcases rd with _ | (e4 | o) <;> rcases wa with _ | (e5 | k) <;>
    first
      | rfl
      | (simp only [orchestrator.Execute]; split <;> rfl)

/-- Every run of `Execute` that begins with a successful container creation
and returns (does not block forever) attempts the forced container removal. -/
theorem remove_in_execute_trace (env : orchestrator.DockerEnv)
    (fn : storage.Function) (ev : String) (cid : String)
    (hc : env.createRes = .ok cid)
    (hret : (orchestrator.Execute env fn ev).result ≠ .diverges) :
    orchestrator.Action.remove true ∈ (orchestrator.Execute env fn ev).trace := by
  obtain ⟨cr, st, att, wr, rd, wa, rm⟩ := env
  subst hc
  rcases st with e1 | u1 <;> rcases att with e2 | u2 <;> rcases wr with e3 | u3 <;>
    rcases rd with _ | (e4 | o) <;> rcases wa with _ | (e5 | k) <;>
    first
      | exact absurd rfl hret
      | (simp [orchestrator.Execute]; done)
      | (simp only [orchestrator.Execute]; split <;> simp)

/-- A failed removal on a returning run surfaces only as the logged warning. -/
theorem execute_remove_failure_warned (env : orchestrator.DockerEnv)
    (fn : storage.Function) (ev : String) (cid e : String)
    (hc : env.createRes = .ok cid) (he : env.removeRes = .error e)
    (hret : (orchestrator.Execute env fn ev).result ≠ .diverges) :
    (orchestrator.Execute env fn ev).warnings = ["Failed to remove container"] := by
  obtain ⟨cr, st, att, wr, rd, wa, rm⟩ := env
  subst hc
  subst he
  rcases st with e1 | u1 <;> rcases att with e2 | u2 <;> rcases wr with e3 | u3 <;>
    rcases rd with _ | (e4 | o) <;> rcases wa with _ | (e5 | k) <;>
    first
      | exact absurd rfl hret
      | (simp [orchestrator.Execute, orchestrator.cleanupWarnings]; done)
      | (simp only [orchestrator.Execute]; split <;>
          simp [orchestrator.cleanupWarnings])

/-- Records that fail a predicate can be skipped when searching an append. -/
theorem find_skip_unmatched (p : storage.Function → Bool)
    (l l2 : List storage.Function) (h : l.any p = false) :
    (l ++ l2).find? p = l2.find? p := by
  induction l with
  | nil => rfl
  | cons a t ih =>
      simp only [List.any_cons, Bool.or_eq_false_iff] at h
      simp [List.find?_cons, h.1, ih h.2]

/-! Claim theorems. -/

/-- C1: for every invocation in which container creation succeeds, `Execute`
attempts the forced removal of that container before returning, on every
exit path (start failure, attach failure, event-write failure, output-read
failure, wait failure, non-zero exit, and success); a removal failure is
only logged as a warning and never replaces or alters the value or error
that `Execute` returns. -/
theorem execute_guaranteed_cleanup (env : orchestrator.DockerEnv)
    (fn : storage.Function) (ev : String) (cid : String)
    (hc : env.createRes = .ok cid)
    (hret : (orchestrator.Execute env fn ev).result ≠ .diverges) :
    orchestrator.Action.remove true ∈ (orchestrator.Execute env fn ev).trace
  ∧ (∀ r, (orchestrator.Execute { env with removeRes := r } fn ev).result =
        (orchestrator.Execute env fn ev).result)
  ∧ (∀ e, env.removeRes = .error e →
        (orchestrator.Execute env fn ev).warnings = ["Failed to remove container"]) := by
  refine ⟨remove_in_execute_trace env fn ev cid hc hret, fun r => ?_,
    fun e he => execute_remove_failure_warned env fn ev cid e hc he hret⟩
  obtain ⟨cr, st, att, wr, rd, wa, rm⟩ := env
  exact execute_result_ignores_removeRes cr st att wr rd wa rm r fn ev

/-- Witness for C1 at a concrete run on which everything succeeds except the
removal, which the daemon denies. -/
theorem execute_guaranteed_cleanup_witness :
    orchestrator.Action.remove true ∈ (orchestrator.Execute envRemoveFail fnEcho "x").trace
  ∧ (orchestrator.Execute { envRemoveFail with removeRes := Except.ok () } fnEcho "x").result =
      (orchestrator.Execute envRemoveFail fnEcho "x").result
  ∧ (orchestrator.Execute envRemoveFail fnEcho "x").warnings =
      ["Failed to remove container"] :=
  have h := execute_guaranteed_cleanup envRemoveFail fnEcho "x" "c1" rfl (by decide)
  ⟨h.1, h.2.1 (Except.ok ()), h.2.2 "denied" rfl⟩

/-- C3: for an invocation of a registered function whose sandbox produces
output bytes `out` and exits 0, `handleInvoke` responds 200 with body
exactly `out` (the echo scenario instantiates `out` with the transformed
event). -/
theorem invoke_success_returns_output (store : List storage.Function)
    (env : orchestrator.DockerEnv) (req : server.HttpRequest)
    (name event out cid : String) (fn : storage.Function)
    (hm : req.method = "POST") (hn : server.trimPre req.path "/invoke/" = name)
    (hne : name ≠ "") (hf : storage.GetFunction store name = .ok fn)
    (hb : req.body = .ok event)
    (hc : env.createRes = .ok cid) (hs : env.startRes = .ok ())
    (ha : env.attachRes = .ok ()) (hw : env.writeRes = .ok ())
    (hr : env.readRes = some (.ok out)) (hwt : env.waitRes = some (.ok 0)) :
    (server.handleInvoke store env req).result = some ⟨200, out⟩ := by
  obtain ⟨m, p, b⟩ := req
  obtain ⟨cr, st, att, wr, rd, wa, rm⟩ := env
  simp only at hm hn hb hc hs ha hw hr hwt
  subst hm hb hc hs ha hw hr hwt
  simp [server.handleInvoke, hn, hne, hf, orchestrator.Execute]

/-- Witness for C3: the spec's concrete echo scenario — the registered
function `echo`, event `\x7b"data":"world"\x7d`, sandbox output
`\x7b"result":"Hey, world"\x7d`, exit code 0 — responds 200 with exactly
that output. -/
theorem invoke_success_returns_output_witness :
    (server.handleInvoke [fnEcho] envEcho
        ⟨"POST", "/invoke/echo", .ok "\x7b\"data\":\"world\"\x7d"⟩).result =
      some ⟨200, "\x7b\"result\":\"Hey, world\"\x7d"⟩ :=
  invoke_success_returns_output [fnEcho] envEcho
    ⟨"POST", "/invoke/echo", .ok "\x7b\"data\":\"world\"\x7d"⟩
    "echo" "\x7b\"data\":\"world\"\x7d" "\x7b\"result\":\"Hey, world\"\x7d" "c1" fnEcho
    rfl rfl (by decide) rfl rfl rfl rfl rfl rfl rfl rfl

/-- C4: when the container reaches a terminal state, `Execute` inspects the
exit code: 0 returns the accumulated output as success; non-zero returns the
exit-code error, and the accumulated output is not part of the success
result. -/
theorem execute_exit_code_semantics (env : orchestrator.DockerEnv)
    (fn : storage.Function) (ev : String) (cid out : String) (code : Int)
    (hc : env.createRes = .ok cid) (hs : env.startRes = .ok ())
    (ha : env.attachRes = .ok ()) (hw : env.writeRes = .ok ())
    (hr : env.readRes = some (.ok out)) (hwt : env.waitRes = some (.ok code)) :
    (orchestrator.Execute env fn ev).result =
      if code = 0 then .success out else .failure (.nonZeroExit code) := by
  obtain ⟨cr, st, att, wr, rd, wa, rm⟩ := env
  simp only at hc hs ha hw hr hwt
  subst hc hs ha hw hr hwt
  rcases eq_or_ne code 0 with h | h <;> simp [orchestrator.Execute, h]

/-- Witness for C4 at exit codes 1 and 0. -/
theorem execute_exit_code_semantics_witness :
    ((orchestrator.Execute envExit1 fnEcho "x").result =
      if (1 : Int) = 0 then .success "out" else .failure (.nonZeroExit 1))
  ∧ ((orchestrator.Execute envEcho fnEcho "x").result =
      if (0 : Int) = 0 then .success "\x7b\"result\":\"Hey, world\"\x7d"
      else .failure (.nonZeroExit 0)) :=
  ⟨execute_exit_code_semantics envExit1 fnEcho "x" "c1" "out" 1
      rfl rfl rfl rfl rfl rfl,
    execute_exit_code_semantics envEcho fnEcho "x" "c1" "\x7b\"result\":\"Hey, world\"\x7d" 0
      rfl rfl rfl rfl rfl rfl⟩

/-- C5: invoking a function name absent from the registry responds 404
"Function not found", after exactly one registry lookup and with no engine
call and no backend action (in particular no container creation). -/
theorem invoke_unknown_function_404 (store : List storage.Function)
    (env : orchestrator.DockerEnv) (req : server.HttpRequest) (name : String)
    (hm : req.method = "POST") (hn : server.trimPre req.path "/invoke/" = name)
    (hne : name ≠ "")
    (hf : store.find? (fun f => f.name == name) = none) :
    server.handleInvoke store env req =
      ⟨some (server.httpError "Function not found" 404), [name], false, []⟩ := by
  obtain ⟨m, p, b⟩ := req
  simp only at hm hn
  subst hm
  simp [server.handleInvoke, hn, hne, storage.GetFunction, hf]

/-- Witness for C5: invoking `echo` against an empty registry. -/
theorem invoke_unknown_function_404_witness :
    server.handleInvoke [] envEcho ⟨"POST", "/invoke/echo", .ok "x"⟩ =
      ⟨some (server.httpError "Function not found" 404), ["echo"], false, []⟩ :=
  invoke_unknown_function_404 [] envEcho ⟨"POST", "/invoke/echo", .ok "x"⟩ "echo"
    rfl rfl (by decide) rfl

/-- C10: a POST whose path is exactly `/invoke/` (empty function name after
the prefix) responds 400 "Function name required" with no registry lookup
and no engine execution. -/
theorem invoke_empty_name_rejected (store : List storage.Function)
    (env : orchestrator.DockerEnv) (b : Except String String) :
    server.handleInvoke store env ⟨"POST", "/invoke/", b⟩ =
      ⟨some (server.httpError "Function name required" 400), [], false, []⟩ := rfl

/-- C7: registering a `FunctionSpec` with non-empty name, image and runtime
and then looking up the same name returns a record with the same name, image
and runtime, whenever the store accepts the write. -/
theorem register_then_lookup (store : List storage.Function)
    (n i r : String) (s : List storage.Function)
    (hn : n ≠ "") (hi : i ≠ "") (hr : r ≠ "")
    (h : storage.CreateFunction store n i r = .ok s) :
    storage.GetFunction s n = .ok ⟨n, i, r⟩ := by
  unfold storage.CreateFunction at h
  split at h
  · exact absurd h (by simp)
  · rename_i hany
    have hs : store ++ [⟨n, i, r⟩] = s := by
      injection h
    subst hs
    unfold storage.GetFunction
    rw [find_skip_unmatched _ _ _ (by simpa using hany)]
    simp [List.find?]

/-- Witness for C7 on an initially empty registry. -/
theorem register_then_lookup_witness :
    storage.GetFunction [fnEcho] "echo" = .ok ⟨"echo", "serverless-echo:latest", "go"⟩ :=
  register_then_lookup [] "echo" "serverless-echo:latest" "go" [fnEcho]
    (by decide) (by decide) (by decide) rfl

/-- C8: `handleDeploy` responds 405 to any non-POST method; 400 when a
decoded field is empty (absent fields decode to the empty string); 500 when
the store write fails, leaving the store unchanged; and 200 with an empty
body when the fields are non-empty and the store write succeeds, the new
record taking effect. -/
theorem deploy_endpoint_responses (store : List storage.Function)
    (req : server.DeployRequest) :
    (req.method ≠ "POST" →
      server.handleDeploy store req = (server.httpError "Method not allowed" 405, store))
  ∧ (∀ m, req.method = "POST" → req.body = some m →
      ((m.name = "" ∨ m.image = "" ∨ m.runtime = "") →
        server.handleDeploy store req =
          (server.httpError "Missing required fields" 400, store))
    ∧ (m.name ≠ "" → m.image ≠ "" → m.runtime ≠ "" →
        (∀ s, storage.CreateFunction store m.name m.image m.runtime = .ok s →
          server.handleDeploy store req = (⟨200, ""⟩, s))
      ∧ (∀ e, storage.CreateFunction store m.name m.image m.runtime = .error e →
          server.handleDeploy store req =
            (server.httpError "Failed to store function" 500, store)))) := by
  obtain ⟨mth, bd⟩ := req
  refine ⟨fun hm => ?_, fun m hm hb => ?_⟩
  · simp only at hm
    simp [server.handleDeploy, hm]
  · simp only at hm hb
    subst hm hb
    refine ⟨fun hempty => ?_, fun hn hi hr => ⟨fun s hs => ?_, fun e he => ?_⟩⟩
    · simp [server.handleDeploy, hempty]
    · simp [server.handleDeploy, hn, hi, hr, hs]
    · simp [server.handleDeploy, hn, hi, hr, he]

/-- Witness for C8: a valid deploy of `echo` against an empty store responds
200 with an empty body and stores the record. -/
theorem deploy_endpoint_responses_witness :
    server.handleDeploy [] ⟨"POST", some ⟨"echo", "serverless-echo:latest", "go"⟩⟩ =
      (⟨200, ""⟩, [fnEcho]) :=
  (((deploy_endpoint_responses [] ⟨"POST", some ⟨"echo", "serverless-echo:latest", "go"⟩⟩).2
      ⟨"echo", "serverless-echo:latest", "go"⟩ rfl rfl).2
    (by decide) (by decide) (by decide)).1 [fnEcho] rfl

/-- C9: after a successful registration of a name, a second registration of
the same name (with any other image and runtime) is rejected by the
uniqueness constraint; the store holds exactly one record under that name,
and lookups still return the first registration unchanged. -/
theorem duplicate_name_rejected (store : List storage.Function)
    (n i1 r1 i2 r2 : String) (s : List storage.Function)
    (h : storage.CreateFunction store n i1 r1 = .ok s) :
    (∃ e, storage.CreateFunction s n i2 r2 = Except.error e)
  ∧ s.countP (fun f => f.name == n) = 1
  ∧ storage.GetFunction s n = .ok ⟨n, i1, r1⟩ := by
  unfold storage.CreateFunction at h
  split at h
  · exact absurd h (by simp)
  · rename_i hany
    have hs : store ++ [⟨n, i1, r1⟩] = s := by
      injection h
    subst hs
    have hmem : (storage.Function.mk n i1 r1).name == n := by simp
    refine ⟨⟨"failed to create function: UNIQUE constraint failed: functions.name", ?_⟩,
      ?_, ?_⟩
    · unfold storage.CreateFunction
      rw [if_pos (by simp [List.any_append])]
    · rw [List.countP_append]
      have hfalse : store.any (fun f => f.name == n) = false := by
        simpa using hany
      have h0 : store.countP (fun f => f.name == n) = 0 :=
        List.countP_eq_zero.mpr (List.any_eq_false.mp hfalse)
      simp [h0, List.countP_cons]
    · unfold storage.GetFunction
      rw [find_skip_unmatched _ _ _ (by simpa using hany)]
      simp [List.find?]

/-- Witness for C9: deploying `echo` twice with different images. -/
theorem duplicate_name_rejected_witness :
    (∃ e, storage.CreateFunction [fnEcho] "echo" "other-image:latest" "go" =
      Except.error e)
  ∧ List.countP (fun f => f.name == "echo") [fnEcho] = 1
  ∧ storage.GetFunction [fnEcho] "echo" =
      .ok ⟨"echo", "serverless-echo:latest", "go"⟩ :=
  duplicate_name_rejected [] "echo" "serverless-echo:latest" "go"
    "other-image:latest" "go" [fnEcho] rfl

/-- C6: within one invocation the engine's steps run strictly sequentially in
the source order create, start, attach, write event then close input, read
output, wait for termination (exit-code inspection is pure and follows the
wait); the main-step trace is always an initial segment of that order, no
step is attempted unless its prerequisite succeeded, and each failing step
yields its own distinct error (create, start, attach, event delivery,
output read, wait). -/
theorem execute_sequential_steps (env : orchestrator.DockerEnv)
    (fn : storage.Function) (ev : String) :
    orchestrator.mainActions (orchestrator.Execute env fn ev).trace =
      orchestrator.stepOrder.take (orchestrator.attempted env)
  ∧ (orchestrator.Action.start ∈ (orchestrator.Execute env fn ev).trace →
      orchestrator.exOk env.createRes = true)
  ∧ (orchestrator.Action.attach ∈ (orchestrator.Execute env fn ev).trace →
      orchestrator.exOk env.startRes = true)
  ∧ (orchestrator.Action.writeEvent ∈ (orchestrator.Execute env fn ev).trace →
      orchestrator.exOk env.attachRes = true)
  ∧ (orchestrator.Action.closeWrite ∈ (orchestrator.Execute env fn ev).trace →
      orchestrator.exOk env.writeRes = true)
  ∧ (orchestrator.Action.readOutput ∈ (orchestrator.Execute env fn ev).trace →
      orchestrator.exOk env.writeRes = true)
  ∧ (orchestrator.Action.wait ∈ (orchestrator.Execute env fn ev).trace →
      orchestrator.readOk env.readRes = true)
  ∧ (∀ e, env.createRes = .error e →
      (orchestrator.Execute env fn ev).result = .failure (.createFailed e))
  ∧ (∀ e, orchestrator.exOk env.createRes = true → env.startRes = .error e →
      (orchestrator.Execute env fn ev).result = .failure (.startFailed e))
  ∧ (∀ e, orchestrator.exOk env.createRes = true →
      orchestrator.exOk env.startRes = true → env.attachRes = .error e →
      (orchestrator.Execute env fn ev).result = .failure (.attachFailed e))
  ∧ (∀ e, orchestrator.exOk env.createRes = true →
      orchestrator.exOk env.startRes = true →
      orchestrator.exOk env.attachRes = true → env.writeRes = .error e →
      (orchestrator.Execute env fn ev).result = .failure (.writeFailed e))
  ∧ (∀ e, orchestrator.exOk env.createRes = true →
      orchestrator.exOk env.startRes = true →
      orchestrator.exOk env.attachRes = true →
      orchestrator.exOk env.writeRes = true → env.readRes = some (.error e) →
      (orchestrator.Execute env fn ev).result = .failure (.readFailed e))
  ∧ (∀ e, orchestrator.exOk env.createRes = true →
      orchestrator.exOk env.startRes = true →
      orchestrator.exOk env.attachRes = true →
      orchestrator.exOk env.writeRes = true →
      orchestrator.readOk env.readRes = true → env.waitRes = some (.error e) →
      (orchestrator.Execute env fn ev).result = .failure (.waitFailed e)) := by
  obtain ⟨cr, st, att, wr, rd, wa, rm⟩ := env
  rcases cr with e0 | c <;> rcases st with e1 | u1 <;> rcases att with e2 | u2 <;>
    rcases wr with e3 | u3 <;> rcases rd with _ | (e4 | o) <;>
    rcases wa with _ | (e5 | k) <;>
    first
      | (simp [orchestrator.Execute, orchestrator.mainActions, orchestrator.stepOrder,
          orchestrator.attempted, orchestrator.exOk, orchestrator.readOk,
          List.filter]; done)
      | (refine ⟨?_, ?_, ?_, ?_, ?_, ?_, ?_, ?_, ?_, ?_, ?_, ?_, ?_⟩ <;>
          simp only [orchestrator.Execute] <;>
          first
            | (simp [orchestrator.mainActions, orchestrator.stepOrder,
                orchestrator.attempted, orchestrator.exOk, orchestrator.readOk,
                List.filter]; done)
            | (split <;>
                simp [orchestrator.mainActions, orchestrator.stepOrder,
                  orchestrator.attempted, orchestrator.exOk, orchestrator.readOk,
                  List.filter]))

/-- Witness for C6: a run whose container creation fails attempts only the
create step and reports the create error. -/
theorem execute_sequential_steps_witness :
    orchestrator.mainActions (orchestrator.Execute envCreateFail fnEcho "x").trace =
      orchestrator.stepOrder.take (orchestrator.attempted envCreateFail)
  ∧ (orchestrator.Execute envCreateFail fnEcho "x").result =
      .failure (.createFailed "no such image") :=
  have h := execute_sequential_steps envCreateFail fnEcho "x"
  ⟨h.1, h.2.2.2.2.2.2.2.1 "no such image" rfl⟩

/-- C2 counterexample: with the registered echo function and a container that
never reaches a terminal state (`ContainerWait` never reports termination),
the invoke request produces no response at all — there is no
ExecutionTimeout outcome at any deadline, because `handleInvoke` hands
`Execute` a `context.Background()` that carries no deadline — and no
container removal is ever attempted (the deferred cleanup never runs because
`Execute` never returns). -/
theorem invoke_no_timeout_counterexample :
    (server.handleInvoke [fnEcho] envNeverExits
        ⟨"POST", "/invoke/echo", .ok "\x7b\"data\":\"world\"\x7d"⟩).result = none
  ∧ orchestrator.Action.remove true ∉
      (server.handleInvoke [fnEcho] envNeverExits
        ⟨"POST", "/invoke/echo", .ok "\x7b\"data\":\"world\"\x7d"⟩).engineTrace := by
  decide

/-- C2 amended: `handleInvoke` passes a context with no deadline
(`context.Background()`) to `Execute` and the code has no timeout mechanism:
for every invocation whose sandbox never exits — its output stream never
closes, or termination is never reported after the output was read — the
invocation blocks forever: no response is produced (so no ExecutionTimeout
and no partially-read output returned as a success) and no removal of the
sandbox is attempted. -/
theorem invoke_never_exiting_sandbox_hangs (store : List storage.Function)
    (env : orchestrator.DockerEnv) (req : server.HttpRequest)
    (name cid : String) (fn : storage.Function)
    (hm : req.method = "POST") (hn : server.trimPre req.path "/invoke/" = name)
    (hne : name ≠ "") (hf : storage.GetFunction store name = .ok fn)
    (hb : ∃ event, req.body = .ok event)
    (hc : env.createRes = .ok cid) (hs : env.startRes = .ok ())
    (ha : env.attachRes = .ok ()) (hw : env.writeRes = .ok ())
    (hnoexit : env.readRes = none ∨
      (∃ out, env.readRes = some (.ok out)) ∧ env.waitRes = none) :
    (server.handleInvoke store env req).result = none
  ∧ orchestrator.Action.remove true ∉
      (server.handleInvoke store env req).engineTrace := by
  obtain ⟨m, p, b⟩ := req
  obtain ⟨cr, st, att, wr, rd, wa, rm⟩ := env
  obtain ⟨event, hb⟩ := hb
  simp only at hm hb hc hs ha hw hnoexit hn
  subst hm hb hc hs ha hw
  rcases hnoexit with hrd | ⟨⟨out, hrd⟩, hwa⟩
  · subst hrd
    simp [server.handleInvoke, hn, hne, hf, orchestrator.Execute]
  · subst hrd
    subst hwa
    simp [server.handleInvoke, hn, hne, hf, orchestrator.Execute]

/-- Witness for the amended C2 at a concrete never-terminating run. -/
theorem invoke_never_exiting_sandbox_hangs_witness :
    (server.handleInvoke [fnEcho] envNeverExits
        ⟨"POST", "/invoke/echo", .ok "x"⟩).result = none
  ∧ orchestrator.Action.remove true ∉
      (server.handleInvoke [fnEcho] envNeverExits
        ⟨"POST", "/invoke/echo", .ok "x"⟩).engineTrace :=
  invoke_never_exiting_sandbox_hangs [fnEcho] envNeverExits
    ⟨"POST", "/invoke/echo", .ok "x"⟩ "echo" "c1" fnEcho
    rfl rfl (by decide) rfl ⟨"x", rfl⟩ rfl rfl rfl rfl
    (Or.inr ⟨⟨"partial", rfl⟩, rfl⟩)
